import Mathlib

/-!
# Verification of `workflow_scripts/generate_onnx_hub_manifest.py`

A shallow embedding of the manifest-generation script.  The script is a
linear batch pipeline: parse markdown documents into HTML tables, discover
secondary documents from the root README, normalize table columns, enrich
each row with file hashes / tags / io ports, and write a JSON manifest.

External collaborators are abstracted as parameters:
* the markdown renderer + BeautifulSoup parser: a document is modelled by
  the list of `<table>` element trees of its rendered HTML
  (`DocFS : String → Option (List Node)`);
* the binary file system: `BinFS : String → Option (List UInt8)`;
* `hashlib.sha256(...).hexdigest()`: an abstract function
  `List UInt8 → String`;
* the onnxruntime engine: `Engine : String → EngineResult`, where
  `EngineResult.notImplemented` models the `NotImplemented` exception the
  script catches and `EngineResult.otherError` models any other exception
  (uncaught).

Python exceptions are modelled with `Except PyErr`; the distinct
constructors matter because the script catches `AttributeError` and
`ValueError` in specific places and lets everything else propagate.
All strings are ASCII in the modelled data, so the ASCII-only case
distinctions of Lean `Char` functions are faithful.
-/

namespace OnnxManifest

/-- Python exception classes that the script can raise or catch.
`valueError` carries the message because `parse_html` raises
`ValueError("data matrix is empty")` while `int(...)` raises a different
`ValueError`; the script's `except` clauses match on the class only. -/
inductive PyErr where
  | attributeError
  | keyError
  | indexError
  | typeError
  | ioError
  | valueError (msg : String)
  | engineError
deriving DecidableEq

/-- Whitespace characters stripped by Python's `str.strip` / `str.rstrip`. -/
def isPySpace (c : Char) : Bool :=
  c = ' ' || c = '\t' || c = '\n' || c = '\r' || c = '\x0b' || c = '\x0c'

/-- Python `str.rstrip()`: drop trailing whitespace. -/
def rstrip (s : String) : String :=
  ⟨(s.data.reverse.dropWhile isPySpace).reverse⟩

/-- Python `str.lstrip()`: drop leading whitespace. -/
def lstrip (s : String) : String :=
  ⟨s.data.dropWhile isPySpace⟩

/-- Python `str.strip()`: drop whitespace on both sides. -/
def pyStrip (s : String) : String :=
  rstrip (lstrip s)

/-- Python `s.split(c)` for a one-character separator: the segment being
accumulated is threaded in reverse. -/
def splitCharAux (c : Char) : List Char → List Char → List (List Char)
  | [], acc => [acc.reverse]
  | x :: xs, acc =>
      if x = c then acc.reverse :: splitCharAux c xs []
      else splitCharAux c xs (x :: acc)

/-- Python `s.split("/")`. -/
def splitSlash (s : String) : List String :=
  (splitCharAux '/' s.data []).map (fun l => ⟨l⟩)

/-- Python `"/".join(parts)`. -/
def joinSlash : List String → String
  | [] => ""
  | [x] => x
  | x :: xs => x ++ "/" ++ joinSlash xs

/-- Python `tag.replace("_", " ")` (single-character pattern, so a map). -/
def underscoresToSpaces (s : String) : String :=
  ⟨s.data.map (fun c => if c = '_' then ' ' else c)⟩

/-- Python `str.replace(" ", "_")` (single-character pattern, so a map). -/
def spacesToUnderscores (s : String) : String :=
  ⟨s.data.map (fun c => if c = ' ' then '_' else c)⟩

/-- Python `str.lower()` restricted to ASCII (all modelled data is ASCII). -/
def pyLower (s : String) : String :=
  ⟨s.data.map Char.toLower⟩

/-- Does the string begin with a slash? -/
def startsSlash (s : String) : Bool :=
  match s.data with
  | '/' :: _ => true
  | _ => false

/-- Does the string end with a slash? -/
def endsSlash (s : String) : Bool :=
  match s.data.getLast? with
  | some '/' => true
  | _ => false

/-- `os.path.join` for two components with POSIX separator (`os.sep = "/"`):
an absolute second component replaces the first, and a separator is added
unless one is already present. -/
def pyJoin (a b : String) : String :=
  if startsSlash b then b
  else if a = "" ∨ endsSlash a then a ++ b
  else a ++ "/" ++ b

/-- `os.path.join` with three components. -/
def pyJoin3 (a b c : String) : String :=
  pyJoin (pyJoin a b) c

/-- `os.path.split` (POSIX): split off the last path component; the head is
stripped of trailing slashes unless it consists only of slashes. -/
def pySplitPath (p : String) : String × String :=
  let rev := p.data.reverse
  let tailRev := rev.takeWhile (· ≠ '/')
  let headRev := rev.dropWhile (· ≠ '/')
  let headData :=
    if headRev.all (· = '/') then headRev.reverse
    else (headRev.dropWhile (· = '/')).reverse
  (⟨headData⟩, ⟨tailRev.reverse⟩)

/-- Value of a digit/underscore string, ignoring underscores. -/
def digitsVal (l : List Char) : Nat :=
  (l.filter (· ≠ '_')).foldl (fun a c => a * 10 + (c.toNat - 48)) 0

/-- No two adjacent underscores. -/
def noDoubleUnderscore : List Char → Bool
  | [] => true
  | [_] => true
  | a :: b :: rest => !(a = '_' ∧ b = '_') && noDoubleUnderscore (b :: rest)

/-- A valid Python integer-literal body: digits, with single underscores
allowed between digits (`int("1_2") == 12`). -/
def validIntBody (l : List Char) : Bool :=
  !l.isEmpty
    && l.all (fun c => c.isDigit || c = '_')
    && (l.head?.elim false (·.isDigit))
    && (l.getLast?.elim false (·.isDigit))
    && noDoubleUnderscore l

/-- Python `int(s)` for a `str` argument: strips surrounding whitespace,
accepts an optional sign and ASCII digits (with legal underscores); raises
`ValueError` otherwise. -/
def pyIntStr (s : String) : Except PyErr Int :=
  let t := (pyStrip s).data
  match t with
  | '+' :: rest =>
      if validIntBody rest then .ok (digitsVal rest)
      else .error (.valueError "invalid literal for int")
  | '-' :: rest =>
      if validIntBody rest then .ok (-(digitsVal rest : Int))
      else .error (.valueError "invalid literal for int")
  | _ =>
      if validIntBody t then .ok (digitsVal t)
      else .error (.valueError "invalid literal for int")

/-! ## HTML nodes (BeautifulSoup tags and strings) -/

/-- A parsed HTML node: `text` models `bs4.NavigableString`, `elem` models a
`bs4.Tag` with its name, attribute dictionary and children (`.contents`). -/
inductive Node where
  | text (s : String)
  | elem (name : String) (attrs : List (String × String)) (children : List Node)

mutual

/-- Decidable equality of nodes (the `deriving` handler does not support
the nested occurrence of `List Node`). -/
def nodeDecEq : (a b : Node) → Decidable (a = b)
  | .text s, .text t =>
      if h : s = t then .isTrue (by rw [h]) else .isFalse (by simp [h])
  | .text _, .elem _ _ _ => .isFalse (by simp)
  | .elem _ _ _, .text _ => .isFalse (by simp)
  | .elem n a c, .elem n' a' c' =>
      match decEq n n', decEq a a', nodeListDecEq c c' with
      | .isTrue h1, .isTrue h2, .isTrue h3 => .isTrue (by rw [h1, h2, h3])
      | .isFalse h1, _, _ => .isFalse (by simp [h1])
      | _, .isFalse h2, _ => .isFalse (by simp [h2])
      | _, _, .isFalse h3 => .isFalse (by simp [h3])

/-- Decidable equality of node lists. -/
def nodeListDecEq : (a b : List Node) → Decidable (a = b)
  | [], [] => .isTrue rfl
  | [], _ :: _ => .isFalse (by simp)
  | _ :: _, [] => .isFalse (by simp)
  | x :: xs, y :: ys =>
      match nodeDecEq x y, nodeListDecEq xs ys with
      | .isTrue h1, .isTrue h2 => .isTrue (by rw [h1, h2])
      | .isFalse h1, _ => .isFalse (by simp [h1])
      | _, .isFalse h2 => .isFalse (by simp [h2])

end

instance : DecidableEq Node := nodeDecEq

mutual

/-- `tag.find_all(pred)` restricted to a single node, *including* the node
itself when it is an element whose name satisfies `pred` (text nodes never
match a name filter); descendants are listed in document (pre)order. -/
def findAllIncl (p : String → Bool) : Node → List Node
  | .text _ => []
  | .elem nm a cs => (if p nm then [.elem nm a cs] else []) ++ findAllList p cs

/-- `find_all` over a list of sibling nodes, in document order. -/
def findAllList (p : String → Bool) : List Node → List Node
  | [] => []
  | n :: rest => findAllIncl p n ++ findAllList p rest

end

/-- `tag.find_all(pred)`: matching descendants of `n` in document order
(the tag itself is not included). -/
def findAll (p : String → Bool) (n : Node) : List Node :=
  match n with
  | .text _ => []
  | .elem _ _ cs => findAllList p cs

mutual

/-- `tag.text`: concatenation of all descendant strings. -/
def nodeText : Node → String
  | .text s => s
  | .elem _ _ cs => nodeTextList cs

/-- `tag.text` over a list of sibling nodes. -/
def nodeTextList : List Node → String
  | [] => ""
  | n :: rest => nodeText n ++ nodeTextList rest

end

/-- Name filter for `find_all("tr")` (exact string name match in bs4). -/
def nameEq (nm : String) (n : String) : Bool := n = nm

/-- `l.isPrefixOf` test used to model `re.search`. -/
def listHasSub (pat : List Char) (l : List Char) : Bool :=
  l.tails.any (fun t => pat.isPrefixOf t)

/-- Name filter for `find_all(re.compile("td|th"))`: bs4 applies
`pattern.search(tag.name)`, so any tag whose name *contains* `td` or `th`
matches. -/
def reTdTh (n : String) : Bool :=
  listHasSub "td".data n.data || listHasSub "th".data n.data

/-- `node.contents`: children of a tag; a `NavigableString` has no
`.contents` attribute (`AttributeError`). -/
def nodeContents : Node → Except PyErr (List Node)
  | .text _ => .error .attributeError
  | .elem _ _ cs => .ok cs

/-- `node.attrs[k]`: attribute lookup on a tag raises `KeyError` when the
attribute is missing; a `NavigableString` has no `.attrs`
(`AttributeError`). -/
def nodeAttr (k : String) : Node → Except PyErr String
  | .text _ => .error .attributeError
  | .elem _ attrs _ =>
      match attrs.lookup k with
      | some v => .ok v
      | none => .error .keyError

/-- `l[0]` on a Python list: `IndexError` when empty. -/
def idx0 {α : Type} : List α → Except PyErr α
  | [] => .error .indexError
  | a :: _ => .ok a

/-! ## DataFrame cells, rows and tables -/

/-- A value stored in a DataFrame cell: a bs4 node, the float `NaN`
(missing value introduced by padding/concatenation), or a plain string
(the `source_file` column). -/
inductive Cell where
  | node (n : Node)
  | nan
  | str (s : String)
deriving DecidableEq

/-- `.contents` on a cell value: works on a tag, `AttributeError` on `NaN`
(a float) and on a plain string. -/
def cellContents : Cell → Except PyErr (List Node)
  | .node n => nodeContents n
  | .nan => .error .attributeError
  | .str _ => .error .attributeError

/-- Use of a cell value as a `str` (argument of `os.path.split`); anything
else would raise a `TypeError`. -/
def cellStr : Cell → Except PyErr String
  | .str s => .ok s
  | _ => .error .typeError

/-- A pandas DataFrame as produced/consumed by the script: an ordered list
of column labels and rows of cells, each row as wide as `columns`. -/
structure PyTable where
  columns : List String
  data : List (List Cell)
deriving DecidableEq

/-- A row of the frame as seen by `iterrows`: labels paired with values. -/
abbrev Row : Type := List (String × Cell)

/-- `row[k]` on a pandas row (`Series`): `KeyError` when the label is
absent. -/
def rowGet (row : Row) (k : String) : Except PyErr Cell :=
  match List.lookup k row with
  | some v => .ok v
  | none => .error .keyError

/-- `k in row`: membership test on the row's labels. -/
def hasCol (row : Row) (k : String) : Bool :=
  (List.lookup k row).isSome

/-- The rows of a table as association lists, in order. -/
def rowsOfTable (t : PyTable) : List Row :=
  t.data.map (fun r => t.columns.zip r)

/-! ## Table Extractor: `parse_html` -/

/-- One iteration of the `for row in rows` loop of `parse_html`, threading
the `headers` and `data_matrix` accumulators. -/
def phStep (acc : List String × List (List Node)) (row : Node) :
    List String × List (List Node) :=
  let hs := acc.1
  let dm := acc.2
  let tdList := findAll (nameEq "td") row
  if tdList.isEmpty then
    if !hs.isEmpty then (hs, dm)
    else
      let thList := findAll (nameEq "th") row
      if thList.isEmpty then (hs, dm)
      else (thList.map (fun cell => pyStrip (nodeText cell)), dm)
  else (hs, dm ++ [findAll reTdTh row])

/-- `pd.DataFrame(data_matrix, columns=headers)`: rows are padded with
`NaN` to the width of the widest row; construction fails with a
`ValueError` when the number of column labels differs from that width. -/
def mkDataFrame (headers : List String) (dm : List (List Node)) :
    Except PyErr PyTable :=
  let width := (dm.map List.length).foldr max 0
  if headers.length = width then
    .ok ⟨headers, dm.map (fun r =>
      r.map Cell.node ++ List.replicate (width - r.length) Cell.nan)⟩
  else .error (.valueError "columns passed, data had different width")

/-- `parse_html(table)`: split the table's `tr` rows into a header list and
a data matrix, reject an empty data matrix, and build the frame. -/
def parse_html (tbl : Node) : Except PyErr PyTable :=
  let acc := (findAll (nameEq "tr") tbl).foldl phStep ([], [])
  if acc.2.isEmpty then .error (.valueError "data matrix is empty")
  else mkDataFrame acc.1 acc.2

/-- The documentation tree: for each path, `none` when the file cannot be
opened, otherwise the `<table>` element trees of the rendered markdown
(markdown rendering and HTML parsing are the external collaborators). -/
abbrev DocFS : Type := String → Option (List Node)

/-- `parse_readme(filename)`: open the file (fatal `IOError` when absent),
render, and parse every `<table>` element. -/
def parse_readme (docs : DocFS) (filename : String) :
    Except PyErr (List PyTable) :=
  match docs filename with
  | none => .error .ioError
  | some tables => tables.mapM parse_html

/-! ## Document Discoverer -/

/-- `join("..", "README.md")`: the fixed root document path. -/
def top_level_readme : String := pyJoin ".." "README.md"

/-- The link extraction of the discovery loop:
`row["Model Class"].contents[0].contents[0].attrs['href']`, then
`join("..", href, "README.md")`.  Each access can raise: a missing label
is a `KeyError`; `.contents`/`.attrs` on a string (or `NaN`) is an
`AttributeError`; `[0]` on an empty list is an `IndexError`; a tag without
`href` is a `KeyError`. -/
def extractModelClassLink (row : Row) : Except PyErr String := do
  let cell ← rowGet row "Model Class"
  let cs ← cellContents cell
  let c0 ← idx0 cs
  let cs0 ← nodeContents c0
  let c00 ← idx0 cs0
  let href ← nodeAttr "href" c00
  return pyJoin3 ".." href "README.md"

/-- Ascending insertion sort of the de-duplicated list: the value of
`sorted(list(set(x)))` (Python string sort is lexicographic, matching the
`LinearOrder` on `String`). -/
def sortDedup (l : List String) : List String :=
  List.insertionSort (· ≤ ·) l.dedup

/-- The expression `row["Model Class"].contents[0]` that the
`AttributeError` handler's diagnostic re-evaluates: an exception raised
here occurs inside the `except` block and propagates. -/
def modelClassFirstContent (r : Row) : Except PyErr Node :=
  rowGet r "Model Class" >>= cellContents >>= idx0

/-- The discovery loop body over a stream of rows: rows without a
`"Model Class"` label are ignored; link extraction failing with an
`AttributeError` prints a diagnostic — whose format argument re-reads the
cell's first content element, so a cell whose very `.contents` raised
(e.g. `NaN`) re-raises inside the handler — and continues; any other
exception propagates; successes are accumulated (into a set, here a
list). -/
def collectLinks : List Row → Except PyErr (List String)
  | [] => .ok []
  | row :: rest =>
      if hasCol row "Model Class" then
        match extractModelClassLink row with
        | .ok p =>
            match collectLinks rest with
            | .ok l => .ok (p :: l)
            | .error e => .error e
        | .error .attributeError =>
            match modelClassFirstContent row with
            | .error e => .error e
            | .ok _ => collectLinks rest
        | .error e => .error e
      else collectLinks rest

/-- The discoverer over a flat stream of rows:
`markdown_files = sorted(list(set(...)))`. -/
def discoverRows (rows : List Row) : Except PyErr (List String) :=
  match collectLinks rows with
  | .ok l => .ok (sortDedup l)
  | .error e => .error e

/-- The discoverer over the root document's tables (the two nested `for`
loops flatten the tables into a row stream). -/
def discoverTables (tables : List PyTable) : Except PyErr (List String) :=
  discoverRows (tables.flatMap rowsOfTable)

/-! ## Table Normalizer -/

/-- `parsed.rename(columns={"Opset Version": "Opset version"})`. -/
def renameOpset (t : PyTable) : PyTable :=
  ⟨t.columns.map (fun c => if c = "Opset Version" then "Opset version" else c),
   t.data⟩

/-- The columns required of a recognized table (pre-normalization names). -/
def requiredCols : List String := ["Model", "Download", "Opset version", "ONNX version"]

/-- `parsed["source_file"] = markdown_file`: assign a constant column,
overwriting it in place when the label already exists, appending otherwise. -/
def setCol (t : PyTable) (name : String) (v : Cell) : PyTable :=
  match t.columns.findIdx? (· = name) with
  | some i => ⟨t.columns, t.data.map (fun r => r.set i v)⟩
  | none => ⟨t.columns ++ [name], t.data.map (fun r => r ++ [v])⟩

/-- The `for markdown_file in markdown_files` loop building `all_tables`:
open each file (fatal `IOError` when absent), parse its tables, apply the
`Opset Version` rename, keep tables having all required columns (tagging
them with their source file), and print a diagnostic for the others. -/
def gatherTables (docs : DocFS) : List String → Except PyErr (List PyTable)
  | [] => .ok []
  | f :: fs =>
      match docs f with
      | none => .error .ioError
      | some _ =>
        match parse_readme docs f with
        | .error e => .error e
        | .ok parsedList =>
          let kept := parsedList.foldl (fun acc p =>
            let p := renameOpset p
            if requiredCols.all (· ∈ p.columns) then
              acc ++ [setCol p "source_file" (.str f)]
            else acc) []
          match gatherTables docs fs with
          | .error e => .error e
          | .ok rest => .ok (kept ++ rest)

/-- `pd.concat(all_tables, axis=0)`: raises a `ValueError` on an empty
list; otherwise outer-joins the columns in order of first appearance,
filling missing cells with `NaN`. -/
def pyConcat (ts : List PyTable) : Except PyErr PyTable :=
  match ts with
  | [] => .error (.valueError "No objects to concatenate")
  | _ =>
    let cols := ts.foldl (fun acc t => acc ++ t.columns.filter (· ∉ acc)) []
    .ok ⟨cols, ts.flatMap (fun t => t.data.map (fun r =>
      cols.map (fun c =>
        match t.columns.findIdx? (· = c) with
        | some i => r.getD i Cell.nan
        | none => Cell.nan)))⟩

/-- The canonical-name mapping `normalize_name`. -/
def normalize_name : List (String × String) :=
  [("Download", "model_path"),
   ("Download (with sample test data)", "model_with_data_path")]

/-- The allow-list `top_level_fields`. -/
def top_level_fields : List String :=
  ["model", "model_path", "opset_version", "onnx_version"]

/-- `prep_name(col)`: apply the canonical-name mapping, strip trailing
whitespace, then use the space→underscore lowercased form only when it is
in the allow-list, returning the (stripped) column name otherwise. -/
def prep_name (col : String) : String :=
  let col := match normalize_name.lookup col with
    | some v => v
    | none => col
  let col := rstrip col
  let prepped_col := pyLower (spacesToUnderscores col)
  if prepped_col ∈ top_level_fields then prepped_col else col

/-- `df.rename(columns={col: prep_name(col) for col in df.columns.values})`. -/
def renameAll (t : PyTable) : PyTable :=
  ⟨t.columns.map prep_name, t.data⟩

/-- Stages 1–3 of the script: parse the root README, discover the
per-model documents, gather and normalize their tables, concatenate, and
apply `prep_name`; produces the rows over which the enrichment loop runs. -/
def stageRows (docs : DocFS) : Except PyErr (List Row) := do
  let top ← parse_readme docs top_level_readme
  let files ← discoverTables top
  let tabs ← gatherTables docs files
  let df ← pyConcat tabs
  let renamed := renameAll df
  return rowsOfTable renamed

/-! ## Record Enricher -/

/-- The binary file system: the readable files and their byte contents. -/
abbrev BinFS : Type := String → Option (List UInt8)

/-- Abstract `hashlib.sha256(bytes).hexdigest()`. -/
abbrev ShaFun : Type := List UInt8 → String

/-- The resolved-file dictionary returned by `get_file_info`: the relative
path (`field` key), the hex digest (`…_sha` key) and the byte count
(`…_bytes` key). -/
structure FileInfo where
  path : String
  sha : String
  bytes : Nat
deriving DecidableEq

/-- `get_file_info(row, field)`: take the directory of `row["source_file"]`,
extract the link target of the cell's first content element, join and
re-normalize the path to a forward-slash relative path dropping its first
segment, then open and hash the referenced file.  All failures propagate
(label lookup `KeyError`, `.contents`/`.attrs` on a non-tag
`AttributeError`, empty `.contents` `IndexError`, missing `href` `KeyError`,
unreadable file `IOError`). -/
def get_file_info (bfs : BinFS) (shaF : ShaFun) (row : Row) (field : String) :
    Except PyErr FileInfo :=
  match rowGet row "source_file" with
  | .error e => .error e
  | .ok sfCell =>
  match cellStr sfCell with
  | .error e => .error e
  | .ok sf =>
  let source_dir := (pySplitPath sf).1
  match rowGet row field with
  | .error e => .error e
  | .ok cell =>
  match cellContents cell with
  | .error e => .error e
  | .ok cs =>
  match idx0 cs with
  | .error e => .error e
  | .ok c0 =>
  match nodeAttr "href" c0 with
  | .error e => .error e
  | .ok model_file =>
  let rel_path := joinSlash ((splitSlash (pyJoin source_dir model_file)).drop 1)
  match bfs (pyJoin ".." rel_path) with
  | none => .error .ioError
  | some bytes => .ok ⟨rel_path, shaF bytes, bytes.length⟩

/-- `get_model_tags(row)`: split the source document's directory on `/`,
drop the first segment, and replace underscores with spaces. -/
def get_model_tags (row : Row) : Except PyErr (List String) :=
  match rowGet row "source_file" with
  | .error e => .error e
  | .ok sfCell =>
  match cellStr sfCell with
  | .error e => .error e
  | .ok sf =>
  let source_dir := (pySplitPath sf).1
  .ok (((splitSlash source_dir).drop 1).map underscoresToSpaces)

/-- A declared input/output of an onnxruntime session (`NodeArg`). -/
structure PortArg where
  name : String
  shape : List (Option Int)
  type : String
deriving DecidableEq

/-- What `ort.InferenceSession` reports for a model file. -/
structure SessionPorts where
  inputs : List PortArg
  outputs : List PortArg
deriving DecidableEq

/-- The inference engine: a session with its declared ports, the
`NotImplemented` exception (payload not fetched), or any other exception. -/
inductive EngineResult where
  | ok (s : SessionPorts)
  | notImplemented
  | otherError
deriving DecidableEq

/-- The engine abstracted over model paths. -/
abbrev Engine : Type := String → EngineResult

/-- The per-port dictionary `{"name": …, "shape": …, "type": …}`. -/
structure PortDesc where
  name : String
  shape : List (Option Int)
  type : String
deriving DecidableEq

/-- The `io_ports` dictionary `{"inputs": […], "outputs": […]}`. -/
structure IoPortsVal where
  inputs : List PortDesc
  outputs : List PortDesc
deriving DecidableEq

/-- `get_model_io_ports(source_file)`: query the engine at
`join("..", source_file)`; on success build the port dictionaries, on
`NotImplemented` print the `git lfs pull` diagnostic and return `None`;
any other engine exception propagates. -/
def get_model_io_ports (engine : Engine) (source_file : String) :
    Except PyErr (Option IoPortsVal) :=
  match engine (pyJoin ".." source_file) with
  | .ok s =>
      .ok (some ⟨s.inputs.map (fun i => ⟨i.name, i.shape, i.type⟩),
                 s.outputs.map (fun o => ⟨o.name, o.shape, o.type⟩)⟩)
  | .notImplemented => .ok none
  | .otherError => .error .engineError

/-- The `metadata` dictionary of a manifest entry. -/
structure Metadata where
  model_sha : String
  model_bytes : Nat
  tags : List String
  io_ports : Option IoPortsVal
  model_with_data : Option FileInfo
deriving DecidableEq

/-- One element of the output manifest. -/
structure Entry where
  model : Node
  model_path : String
  onnx_version : Node
  opset_version : Int
  metadata : Metadata
deriving DecidableEq

/-- The `try: … get_file_info(row, "model_with_data_path") … except
AttributeError` block: an `AttributeError` (e.g. a `NaN` cell) is caught
with a diagnostic (whose format argument reads `row["source_file"]`, so a
missing `source_file` label raises inside the handler); every other
exception propagates. -/
def withDataStep (bfs : BinFS) (shaF : ShaFun) (row : Row) :
    Except PyErr (Option FileInfo) :=
  match get_file_info bfs shaF row "model_with_data_path" with
  | .ok i => .ok (some i)
  | .error .attributeError =>
      match rowGet row "source_file" with
      | .error e => .error e
      | .ok _ => .ok none
  | .error e => .error e

/-- `row["opset_version"].contents[0]` (the expression inside `int(...)`). -/
def opsetNode (row : Row) : Except PyErr Node :=
  rowGet row "opset_version" >>= cellContents >>= idx0

/-- `row["onnx_version"].contents[0]`. -/
def onnxVersionNode (row : Row) : Except PyErr Node :=
  rowGet row "onnx_version" >>= cellContents >>= idx0

/-- `int(x)` applied to a cell content element: parses a string, raises
`TypeError` on a tag. -/
def pyIntNode : Node → Except PyErr Int
  | .text s => pyIntStr s
  | .elem _ _ _ => .error .typeError

/-- One iteration of the enrichment loop (lines 143–176): resolve and hash
`model_path` (errors fatal), derive tags, query the engine, optionally
resolve `model_with_data_path`, parse the opset (a `ValueError` drops the
record with a diagnostic — `.ok none`), and emit the entry unless the
`model` cell has no contents.  The diagnostics of the two drop paths
format `row["source_file"]` (and the malformed-opset one re-reads
`row["opset_version"].contents[0]`, already evaluated successfully in the
`try`), so a missing `source_file` label raises inside those handlers.
The source re-evaluates `int(row["opset_version"].contents[0])` when
building the entry; the expression is deterministic, so its
already-computed value is reused. -/
def processRow (bfs : BinFS) (shaF : ShaFun) (engine : Engine) (row : Row) :
    Except PyErr (Option Entry) :=
  match get_file_info bfs shaF row "model_path" with
  | .error e => .error e
  | .ok info =>
  match get_model_tags row with
  | .error e => .error e
  | .ok tags =>
  match get_model_io_ports engine info.path with
  | .error e => .error e
  | .ok ioP =>
  match withDataStep bfs shaF row with
  | .error e => .error e
  | .ok wd =>
  match opsetNode row with
  | .error e => .error e
  | .ok onode =>
  match pyIntNode onode with
  | .error (.valueError _) =>
      match rowGet row "source_file" with
      | .error e => .error e
      | .ok _ => .ok none
  | .error e => .error e
  | .ok opset =>
  match rowGet row "model" with
  | .error e => .error e
  | .ok mcell =>
  match cellContents mcell with
  | .error e => .error e
  | .ok [] =>
      match rowGet row "source_file" with
      | .error e => .error e
      | .ok _ => .ok none
  | .ok (c :: _) =>
  match onnxVersionNode row with
  | .error e => .error e
  | .ok vnode =>
      .ok (some ⟨c, info.path, vnode, opset,
        ⟨info.sha, info.bytes, tags, ioP, wd⟩⟩)

/-- The whole enrichment loop: entries of surviving rows in order; the
first uncaught exception aborts the run. -/
def processAll (bfs : BinFS) (shaF : ShaFun) (engine : Engine) :
    List Row → Except PyErr (List Entry)
  | [] => .ok []
  | row :: rest =>
      match processRow bfs shaF engine row with
      | .error e => .error e
      | .ok oe =>
          match processAll bfs shaF engine rest with
          | .error e => .error e
          | .ok l => .ok (oe.toList ++ l)

/-! ## Manifest Writer and whole-script composition -/

/-- The whole script up to (excluding) the manifest write: the value of
`output` at line 178, or the uncaught exception that aborted the run. -/
def script (docs : DocFS) (bfs : BinFS) (shaF : ShaFun) (engine : Engine) :
    Except PyErr (List Entry) :=
  match stageRows docs with
  | .error e => .error e
  | .ok rows => processAll bfs shaF engine rows

/-- The content of `ONNX_HUB_MANIFEST.json` after the run, given its prior
content: the file is opened and rewritten only after the loop has
completed; a run aborted by an exception leaves it untouched. -/
def finalManifest (prior : Option (List Entry)) (docs : DocFS) (bfs : BinFS)
    (shaF : ShaFun) (engine : Engine) : Option (List Entry) :=
  match script docs bfs shaF engine with
  | .error _ => prior
  | .ok out => some out

/-! ## Concrete fixtures

End-to-end scenario documents (spec §8 scenario 1): a root README whose
single table links one model class to `models/foo/README.md`, and that
README with one recognized table. -/

/-- The root README's table: a `Model Class` header and one row whose cell
holds a bold link to `models/foo`. -/
def rootTable : Node :=
  .elem "table" []
    [.elem "tr" [] [.elem "th" [] [.text "Model Class"]],
     .elem "tr" [] [.elem "td" []
       [.elem "b" [] [.elem "a" [("href", "models/foo")] [.text "Foo"]]]]]

/-- A header cell. -/
def thCell (s : String) : Node := .elem "th" [] [.text s]

/-- A data cell. -/
def tdCell (cs : List Node) : Node := .elem "td" [] cs

/-- The `models/foo` README table with exactly the four columns of
scenario 1. -/
def fooTable4 : Node :=
  .elem "table" []
    [.elem "tr" [] [thCell "Model", thCell "Download", thCell "Opset version",
       thCell "ONNX version"],
     .elem "tr" []
       [tdCell [.text "FooNet"],
        tdCell [.elem "a" [("href", "foo.onnx")] [.text "19 MB"]],
        tdCell [.text "12"],
        tdCell [.text "1.9"]]]

/-- The same table with an additional
`Download (with sample test data)` column. -/
def fooTable5 : Node :=
  .elem "table" []
    [.elem "tr" [] [thCell "Model", thCell "Download",
       thCell "Download (with sample test data)", thCell "Opset version",
       thCell "ONNX version"],
     .elem "tr" []
       [tdCell [.text "FooNet"],
        tdCell [.elem "a" [("href", "foo.onnx")] [.text "19 MB"]],
        tdCell [.elem "a" [("href", "foo.tar.gz")] [.text "21 MB"]],
        tdCell [.text "12"],
        tdCell [.text "1.9"]]]

/-- Documents for scenario 1 exactly as the claim states it (four
columns). -/
def scenarioDocs4 : DocFS := fun p =>
  if p = "../README.md" then some [rootTable]
  else if p = "../models/foo/README.md" then some [fooTable4]
  else none

/-- Documents for the amended scenario (the table also carries the
with-sample-data column). -/
def scenarioDocs5 : DocFS := fun p =>
  if p = "../README.md" then some [rootTable]
  else if p = "../models/foo/README.md" then some [fooTable5]
  else none

/-- Bytes of the referenced model binary. -/
def fooOnnxBytes : List UInt8 := [0x6f, 0x6e, 0x6e, 0x78]

/-- Bytes of the referenced archive. -/
def fooTarBytes : List UInt8 := [0x74, 0x61, 0x72]

/-- The binary files referenced by the scenario documents. -/
def scenarioBins : BinFS := fun p =>
  if p = "../models/foo/foo.onnx" then some fooOnnxBytes
  else if p = "../models/foo/foo.tar.gz" then some fooTarBytes
  else none

/-- A file system with no readable files (scenario 4: the model binary is
absent on disk). -/
def noBins : BinFS := fun _ => none

/-- A degenerate stand-in for the hash function, usable in closed
statements. -/
def shaLen : ShaFun := fun bytes => toString bytes.length

/-- An engine that reports `NotImplemented` for every file (scenario 5:
the large-file payloads were not fetched). -/
def engineNI : Engine := fun _ => .notImplemented

/-! ## Helper lemmas -/

/-- `dropWhile` is idempotent. -/
theorem dropWhile_idem {α : Type} (p : α → Bool) (l : List α) :
    (l.dropWhile p).dropWhile p = l.dropWhile p := by
  induction l with
  | nil => rfl
  | cons c t ih =>
      by_cases hc : p c
      · simp [List.dropWhile, hc, ih]
      · simp [List.dropWhile, hc]

/-- Stripping trailing whitespace is idempotent. -/
theorem rstrip_idem (s : String) : rstrip (rstrip s) = rstrip s := by
  unfold rstrip
  simp [dropWhile_idem]

/-- `prep_name` rewritten with `Option.getD` in place of the `match`. -/
theorem prep_name_eq (col : String) :
    prep_name col =
      (if pyLower (spacesToUnderscores (rstrip ((normalize_name.lookup col).getD col)))
          ∈ top_level_fields
       then pyLower (spacesToUnderscores (rstrip ((normalize_name.lookup col).getD col)))
       else rstrip ((normalize_name.lookup col).getD col)) := by
  unfold prep_name
  cases normalize_name.lookup col <;> rfl

/-! ## Claim C5 -/

/-- C5 (counterexample): a header that is neither canonically mapped nor
in the allow-list is *not* left unchanged by `prep_name` — its trailing
whitespace is stripped unconditionally. -/
theorem c5_counterexample :
    prep_name "Foo " = "Foo" ∧ ("Foo" : String) ≠ "Foo " := by
  constructor
  · rfl
  · decide

/-- C5 (amended): for every column header other than the two canonically
mapped ones, trailing whitespace is stripped; the space→underscore and
lowercase steps are then applied exactly when the resulting transformed
form is in the allow-list `{model, model_path, opset_version,
onnx_version}`; otherwise the header is returned with only its trailing
whitespace stripped. -/
theorem c5_prep_name_allowlist (col : String)
    (h : normalize_name.lookup col = none) :
    prep_name col =
      (if pyLower (spacesToUnderscores (rstrip col)) ∈ top_level_fields
       then pyLower (spacesToUnderscores (rstrip col))
       else rstrip col) := by
  rw [prep_name_eq col, h]
  rfl

/-- C5 (witness): the amended statement evaluated at the unmapped,
non-allow-listed header `"My Col "`. -/
theorem c5_prep_name_allowlist_witness :
    normalize_name.lookup "My Col " = none ∧
      prep_name "My Col " =
        (if pyLower (spacesToUnderscores (rstrip "My Col ")) ∈ top_level_fields
         then pyLower (spacesToUnderscores (rstrip "My Col "))
         else rstrip "My Col ") :=
  ⟨by decide, c5_prep_name_allowlist "My Col " (by decide)⟩

/-! ## Claim C6 -/

/-- C6 (counterexample): `prep_name` is not idempotent on its own image:
`"Download "` normalizes to `"Download"`, which is a key of the canonical
rename map, so a second application yields `"model_path"`. -/
theorem c6_counterexample :
    prep_name "Download " = "Download" ∧
      prep_name (prep_name "Download ") = "model_path" ∧
      ("model_path" : String) ≠ "Download" := by
  refine ⟨rfl, rfl, by decide⟩

/-- C6 (amended): `prep_name` is idempotent on every header whose
normalized form is not a key of the canonical rename map (the only
exceptions are headers normalizing to `"Download"` or
`"Download (with sample test data)"`). -/
theorem c6_prep_name_idem (col : String)
    (h : normalize_name.lookup (prep_name col) = none) :
    prep_name (prep_name col) = prep_name col := by
  rw [prep_name_eq col] at h ⊢
  by_cases hmem : pyLower (spacesToUnderscores
      (rstrip ((normalize_name.lookup col).getD col))) ∈ top_level_fields
  · rw [if_pos hmem]
    simp only [top_level_fields, List.mem_cons, List.not_mem_nil, or_false] at hmem
    rcases hmem with h1 | h1 | h1 | h1 <;> rw [h1] <;> decide
  · rw [if_neg hmem] at h ⊢
    rw [prep_name_eq, h, Option.getD_none, rstrip_idem, if_neg hmem]

/-- C6 (witness): the amended idempotence evaluated at the already
normalized header `"Opset version"`. -/
theorem c6_prep_name_idem_witness :
    normalize_name.lookup (prep_name "Opset version") = none ∧
      prep_name (prep_name "Opset version") = prep_name "Opset version" :=
  ⟨by decide, c6_prep_name_idem "Opset version" (by decide)⟩

/-! ## Claim C3 -/

/-- The per-row outcome of discovery after the `try`/`except`: the joined
path for rows whose link extraction succeeds, nothing for rows without a
`"Model Class"` label (or whose extraction fails). -/
def rowLink (r : Row) : Option String :=
  if hasCol r "Model Class" then (extractModelClassLink r).toOption else none

/-- A row whose processing by the discovery loop cannot abort it: either
there is no `"Model Class"` label, or the link extraction succeeds, or it
fails with the (caught) `AttributeError` and the handler's diagnostic —
which re-reads the cell's first content element — prints without raising. -/
def noFatalLinkError (r : Row) : Bool :=
  !hasCol r "Model Class" ||
    (match extractModelClassLink r with
     | .ok _ => true
     | .error .attributeError =>
         (match modelClassFirstContent r with
          | .ok _ => true
          | .error _ => false)
     | .error _ => false)

/-- When no row aborts the loop, `collectLinks` succeeds and collects
exactly the successful extractions, in row order. -/
theorem collectLinks_eq (rows : List Row)
    (h : ∀ r ∈ rows, noFatalLinkError r = true) :
    collectLinks rows = .ok (rows.filterMap rowLink) := by
  induction rows with
  | nil => rfl
  | cons row rest ih =>
      have hrow := h row (List.mem_cons_self row rest)
      have hrest := ih (fun r hr => h r (List.mem_cons_of_mem row hr))
      unfold noFatalLinkError at hrow
      by_cases hc : hasCol row "Model Class"
      · rw [hc] at hrow
        simp only [Bool.not_true, Bool.false_or] at hrow
        cases hx : extractModelClassLink row with
        | ok p =>
            simp [collectLinks, hc, hx, hrest, List.filterMap_cons, rowLink,
              Except.toOption]
        | error e =>
            rw [hx] at hrow
            cases e with
            | attributeError =>
                cases hmc : modelClassFirstContent row with
                | ok n =>
                    simp [collectLinks, hc, hx, hmc, hrest,
                      List.filterMap_cons, rowLink, Except.toOption]
                | error e2 =>
                    rw [hmc] at hrow
                    simp at hrow
            | keyError => simp at hrow
            | indexError => simp at hrow
            | typeError => simp at hrow
            | ioError => simp at hrow
            | valueError m => simp at hrow
            | engineError => simp at hrow
      · simp [collectLinks, hc, hrest, List.filterMap_cons, rowLink]

/-- `sortDedup` output is sorted. -/
theorem sortDedup_sorted (l : List String) :
    (sortDedup l).Sorted (· ≤ ·) :=
  List.sorted_insertionSort _ _

/-- `sortDedup` output has no duplicates. -/
theorem sortDedup_nodup (l : List String) : (sortDedup l).Nodup :=
  ((List.perm_insertionSort (· ≤ ·) l.dedup).nodup_iff).mpr (List.nodup_dedup l)

/-- `sortDedup` is invariant under permutation of its input. -/
theorem sortDedup_perm_eq {l1 l2 : List String} (h : l1.Perm l2) :
    sortDedup l1 = sortDedup l2 := by
  refine List.eq_of_perm_of_sorted ?_ (sortDedup_sorted l1) (sortDedup_sorted l2)
  exact ((List.perm_insertionSort (· ≤ ·) l1.dedup).trans h.dedup).trans
    (List.perm_insertionSort (· ≤ ·) l2.dedup).symm

/-- C3 (counterexample): a `"Model Class"` cell whose nested first element
exists but has no `href` attribute "lacks a resolvable hyperlink target",
yet the discoverer does not skip the row — the uncaught `KeyError` of
`attrs['href']` aborts discovery with no output. -/
def badLinkRow : Row :=
  [("Model Class", .node (.elem "td" []
    [.elem "b" [] [.elem "i" [] [.text "X"]]]))]

/-- C3 (counterexample): discovery on the row aborts with a `KeyError`
instead of continuing past it. -/
theorem c3_counterexample :
    extractModelClassLink badLinkRow = .error .keyError ∧
      discoverRows [badLinkRow] = .error .keyError :=
  ⟨rfl, rfl⟩

/-- C3 (amended): rows whose `"Model Class"` link extraction fails with an
`AttributeError` (plain text or a missing value where a tag was expected)
are skipped, and when every row is of that benign kind the discoverer
succeeds with a lexicographically sorted, de-duplicated output that is
unaffected by the order of rows; a present element lacking the `href`
attribute instead aborts discovery with an uncaught `KeyError` (and an
empty cell with an uncaught `IndexError`). -/
theorem c3_discoverer_sorted_dedup_perm (l1 l2 : List Row)
    (hperm : l1.Perm l2) (hben : ∀ r ∈ l1, noFatalLinkError r = true) :
    ∃ out, discoverRows l1 = .ok out ∧ discoverRows l2 = .ok out ∧
      out.Sorted (· ≤ ·) ∧ out.Nodup := by
  have hben2 : ∀ r ∈ l2, noFatalLinkError r = true :=
    fun r hr => hben r (hperm.mem_iff.mpr hr)
  refine ⟨sortDedup (l1.filterMap rowLink), ?_, ?_, sortDedup_sorted _,
    sortDedup_nodup _⟩
  · unfold discoverRows
    rw [collectLinks_eq l1 hben]
  · unfold discoverRows
    rw [collectLinks_eq l2 hben2, sortDedup_perm_eq (hperm.filterMap rowLink)]

/-- A row with a well-formed model-class link, for the C3 witness. -/
def linkRow (target : String) : Row :=
  [("Model Class", .node (.elem "td" []
    [.elem "b" [] [.elem "a" [("href", target)] [.text target]]]))]

/-- A row whose model-class cell is plain text (benign failure), for the
C3 witness. -/
def noLinkRow : Row :=
  [("Model Class", .node (.elem "td" [] [.text "no implementation"]))]

/-- C3 (witness): the amended statement evaluated on a three-row input and
a permutation of it, containing a duplicate link and a benign
`AttributeError` row. -/
theorem c3_discoverer_sorted_dedup_perm_witness :
    ∃ out,
      discoverRows [linkRow "models/b", noLinkRow, linkRow "models/a",
        linkRow "models/b"] = .ok out ∧
      discoverRows [linkRow "models/a", linkRow "models/b",
        linkRow "models/b", noLinkRow] = .ok out ∧
      out.Sorted (· ≤ ·) ∧ out.Nodup := by
  exact c3_discoverer_sorted_dedup_perm _ _ (by decide) (by decide)

/-! ## Claim C4 -/

/-- Once headers are set, each remaining row with at least one `td` cell
appends its `td`/`th` cells to the data matrix; `phStep` never revisits
the headers. -/
theorem phStep_fold_data (rest : List Node) (hs : List String)
    (dm : List (List Node))
    (hrest : ∀ r ∈ rest, findAll (nameEq "td") r ≠ []) :
    rest.foldl phStep (hs, dm) = (hs, dm ++ rest.map (findAll reTdTh)) := by
  induction rest generalizing dm with
  | nil => simp
  | cons r rs ih =>
      have hr : ¬((findAll (nameEq "td") r).isEmpty = true) := by
        rw [List.isEmpty_iff]
        exact hrest r (List.mem_cons_self r rs)
      have hstep : phStep (hs, dm) r = (hs, dm ++ [findAll reTdTh r]) := by
        unfold phStep
        simp [hr]
      rw [List.foldl_cons, hstep,
        ih (dm ++ [findAll reTdTh r]) (fun x hx => hrest x (List.mem_cons_of_mem r hx))]
      simp

/-- Folding `max` over a non-empty list of copies of `H` gives `H`. -/
theorem foldr_max_const (l : List Nat) (H : Nat) (hne : l ≠ [])
    (h : ∀ x ∈ l, x = H) : l.foldr max 0 = H := by
  induction l with
  | nil => exact absurd rfl hne
  | cons x xs ih =>
      have hx := h x (List.mem_cons_self x xs)
      cases xs with
      | nil => simp [hx]
      | cons y ys =>
          rw [List.foldr_cons, ih (by simp) (fun z hz => h z (List.mem_cons_of_mem x hz)), hx]
          simp

/-- C4 (counterexample): in `parse_html`, a row whose only cells use
header-type markup is *not* turned into a data row once the header is set
(the third row below is silently skipped), and a table whose data rows
appear before any header row is *not* rejected (the header here is taken
from the second row, after a data row was already collected).  The claim's
"every row … whose cells use data-type or header-type markup becomes a
data row" and "no header cells before data rows appear [is rejected]" are
both false on this table. -/
def c4Table : Node :=
  .elem "table" []
    [.elem "tr" [] [tdCell [.text "a"]],
     .elem "tr" [] [thCell "H"],
     .elem "tr" [] [thCell "X"]]

/-- C4 (counterexample): the parse succeeds with one data row. -/
theorem c4_counterexample :
    parse_html c4Table =
      .ok ⟨["H"], [[.node (.elem "td" [] [.text "a"])]]⟩ := rfl

/-- C4 (amended): a row containing at least one data-type cell becomes a
data row made of its data-type and header-type cells in document order
(positioned by column); header-type-only rows set the header when it is
still unset and are skipped otherwise; a table with zero data rows is
rejected with the "data matrix is empty" error; and for a well-formed
table — a `th`-only header row followed by data rows whose `td`/`th` cell
count equals the header count — the column count equals the header count
and the row count equals the data-row count. -/
theorem c4_well_formed_table (tbl hdr : Node) (rest : List Node)
    (htr : findAll (nameEq "tr") tbl = hdr :: rest)
    (htd : findAll (nameEq "td") hdr = [])
    (hth : findAll (nameEq "th") hdr ≠ [])
    (hrest : rest ≠ [])
    (hdata : ∀ r ∈ rest, findAll (nameEq "td") r ≠ [] ∧
      (findAll reTdTh r).length = (findAll (nameEq "th") hdr).length) :
    parse_html tbl =
      .ok ⟨(findAll (nameEq "th") hdr).map (fun c => pyStrip (nodeText c)),
           rest.map (fun r => (findAll reTdTh r).map Cell.node)⟩ ∧
      ((findAll (nameEq "th") hdr).map (fun c => pyStrip (nodeText c))).length =
        (findAll (nameEq "th") hdr).length ∧
      (rest.map (fun r => (findAll reTdTh r).map Cell.node)).length = rest.length := by
  have hth' : ¬((findAll (nameEq "th") hdr).isEmpty = true) := by
    rw [List.isEmpty_iff]; exact hth
  have htd' : ((findAll (nameEq "td") hdr).isEmpty = true) := by
    rw [List.isEmpty_iff]; exact htd
  have hstep0 : phStep ([], []) hdr =
      ((findAll (nameEq "th") hdr).map (fun c => pyStrip (nodeText c)), []) := by
    unfold phStep
    simp [htd', hth']
  have hfold : (hdr :: rest).foldl phStep ([], []) =
      ((findAll (nameEq "th") hdr).map (fun c => pyStrip (nodeText c)),
        rest.map (findAll reTdTh)) := by
    rw [List.foldl_cons, hstep0,
      phStep_fold_data rest _ [] (fun r hr => (hdata r hr).1)]
    rfl
  have hW : ((rest.map (findAll reTdTh)).map List.length).foldr max 0 =
      (findAll (nameEq "th") hdr).length := by
    refine foldr_max_const _ _ (by simp [hrest]) ?_
    intro x hx
    simp only [List.map_map, List.mem_map] at hx
    obtain ⟨r, hr, hxe⟩ := hx
    rw [← hxe]
    exact (hdata r hr).2
  have hdmne : ¬((rest.map (findAll reTdTh)).isEmpty = true) := by
    rw [List.isEmpty_iff]
    simp [hrest]
  refine ⟨?_, by simp, by simp⟩
  unfold parse_html
  rw [htr, hfold]
  simp only [hdmne, if_false]
  unfold mkDataFrame
  rw [hW]
  simp only [List.length_map, if_pos rfl]
  refine congrArg Except.ok ?_
  refine congrArg (PyTable.mk _) ?_
  rw [List.map_map]
  refine List.map_congr_left ?_
  intro r hr
  have := (hdata r hr).2
  simp only [Function.comp]
  rw [this]
  simp

/-- C4 (witness): the amended statement evaluated on the four-column
scenario table. -/
theorem c4_well_formed_table_witness :
    parse_html fooTable4 =
      .ok ⟨["Model", "Download", "Opset version", "ONNX version"],
        [[.node (tdCell [.text "FooNet"]),
          .node (tdCell [.elem "a" [("href", "foo.onnx")] [.text "19 MB"]]),
          .node (tdCell [.text "12"]),
          .node (tdCell [.text "1.9"])]]⟩ := by
  have h := c4_well_formed_table fooTable4
    (.elem "tr" [] [thCell "Model", thCell "Download", thCell "Opset version",
      thCell "ONNX version"])
    [.elem "tr" [] [tdCell [.text "FooNet"],
      tdCell [.elem "a" [("href", "foo.onnx")] [.text "19 MB"]],
      tdCell [.text "12"], tdCell [.text "1.9"]]]
    (by decide) (by decide) (by decide) (by decide) (by decide)
  exact h.1

/-! ## Enrichment-loop helper lemmas -/

/-- An exception inside the initial `get_file_info(row, "model_path")`
aborts the iteration (nothing catches it). -/
theorem processRow_fatal_info (bfs : BinFS) (shaF : ShaFun) (engine : Engine)
    (row : Row) (e : PyErr)
    (h : get_file_info bfs shaF row "model_path" = .error e) :
    processRow bfs shaF engine row = .error e := by
  unfold processRow
  rw [h]

/-- When every step succeeds, `processRow` emits the entry assembled from
the step results. -/
theorem processRow_emit (bfs : BinFS) (shaF : ShaFun) (engine : Engine)
    (row : Row) (info : FileInfo) (tags : List String) (ioP : Option IoPortsVal)
    (wd : Option FileInfo) (onode : Node) (n : Int) (mcell : Cell) (c : Node)
    (crest : List Node) (vnode : Node)
    (hinfo : get_file_info bfs shaF row "model_path" = .ok info)
    (htags : get_model_tags row = .ok tags)
    (hio : get_model_io_ports engine info.path = .ok ioP)
    (hwd : withDataStep bfs shaF row = .ok wd)
    (hop : opsetNode row = .ok onode)
    (hn : pyIntNode onode = .ok n)
    (hm : rowGet row "model" = .ok mcell)
    (hmc : cellContents mcell = .ok (c :: crest))
    (hv : onnxVersionNode row = .ok vnode) :
    processRow bfs shaF engine row =
      .ok (some ⟨c, info.path, vnode, n, ⟨info.sha, info.bytes, tags, ioP, wd⟩⟩) := by
  unfold processRow
  simp only [hinfo, htags, hio, hwd, hop, hn, hm, hmc, hv]

/-- A `ValueError` from the opset parse is caught: the record is dropped,
not the run. -/
theorem processRow_skip_opset (bfs : BinFS) (shaF : ShaFun) (engine : Engine)
    (row : Row) (info : FileInfo) (tags : List String) (ioP : Option IoPortsVal)
    (wd : Option FileInfo) (sfc : Cell) (s msg : String)
    (hinfo : get_file_info bfs shaF row "model_path" = .ok info)
    (htags : get_model_tags row = .ok tags)
    (hio : get_model_io_ports engine info.path = .ok ioP)
    (hwd : withDataStep bfs shaF row = .ok wd)
    (hop : opsetNode row = .ok (.text s))
    (hbad : pyIntStr s = .error (.valueError msg))
    (hsf : rowGet row "source_file" = .ok sfc) :
    processRow bfs shaF engine row = .ok none := by
  unfold processRow
  simp only [hinfo, htags, hio, hwd, hop, pyIntNode, hbad, hsf]

/-- `get_model_io_ports` succeeds whenever the engine does not raise an
exception other than `NotImplemented`. -/
theorem engine_io_ok (engine : Engine) (p : String)
    (h : engine (pyJoin ".." p) ≠ .otherError) :
    ∃ v, get_model_io_ports engine p = .ok v := by
  unfold get_model_io_ports
  cases hE : engine (pyJoin ".." p)
  · exact ⟨_, rfl⟩
  · exact ⟨_, rfl⟩
  · exact absurd hE h

/-- A dropped record contributes nothing to the output. -/
theorem processAll_cons_skip (bfs : BinFS) (shaF : ShaFun) (engine : Engine)
    (row : Row) (rest : List Row)
    (h : processRow bfs shaF engine row = .ok none) :
    processAll bfs shaF engine (row :: rest) = processAll bfs shaF engine rest := by
  simp only [processAll, h]
  cases processAll bfs shaF engine rest <;> simp

/-- A dropped record anywhere in the row stream contributes nothing: the
loop continues with all other rows. -/
theorem processAll_middle_skip (bfs : BinFS) (shaF : ShaFun) (engine : Engine)
    (row : Row) (pre post : List Row)
    (h : processRow bfs shaF engine row = .ok none) :
    processAll bfs shaF engine (pre ++ row :: post) =
      processAll bfs shaF engine (pre ++ post) := by
  induction pre with
  | nil => simpa using processAll_cons_skip bfs shaF engine row post h
  | cons p ps ih =>
      simp only [List.cons_append, processAll, List.append_eq]
      rw [ih]

/-- A fatal record anywhere in the row stream aborts the whole loop. -/
theorem processAll_error_of_mem (bfs : BinFS) (shaF : ShaFun) (engine : Engine)
    (rows : List Row) (row : Row) (hmem : row ∈ rows)
    (h : ∃ e, processRow bfs shaF engine row = .error e) :
    ∃ e, processAll bfs shaF engine rows = .error e := by
  induction rows with
  | nil => exact absurd hmem (List.not_mem_nil row)
  | cons r rs ih =>
      rcases List.mem_cons.mp hmem with heq | hmem'
      · obtain ⟨e, he⟩ := h
        subst heq
        exact ⟨e, by simp only [processAll, he]⟩
      · cases hr : processRow bfs shaF engine r with
        | error e => exact ⟨e, by simp only [processAll, hr]⟩
        | ok oe =>
            obtain ⟨e, he⟩ := ih hmem'
            exact ⟨e, by simp only [processAll, hr, he]⟩

/-! ## Row fixtures for the enrichment-loop claims -/

/-- A fully benign normalized record, as produced by the five-column
scenario table: resolvable model link, `NaN` with-data cell, numeric
opset. -/
def rowM : Row :=
  [("model", .node (tdCell [.text "FooNet"])),
   ("model_path", .node (tdCell [.elem "a" [("href", "foo.onnx")] [.text "19 MB"]])),
   ("model_with_data_path", .nan),
   ("opset_version", .node (tdCell [.text "12"])),
   ("onnx_version", .node (tdCell [.text "1.9"])),
   ("source_file", .str "../models/foo/README.md")]

/-- The same record with non-numeric text in the opset cell. -/
def rowBadOpset : Row :=
  [("model", .node (tdCell [.text "FooNet"])),
   ("model_path", .node (tdCell [.elem "a" [("href", "foo.onnx")] [.text "19 MB"]])),
   ("model_with_data_path", .nan),
   ("opset_version", .node (tdCell [.text "twelve"])),
   ("onnx_version", .node (tdCell [.text "1.9"])),
   ("source_file", .str "../models/foo/README.md")]

/-- The same record without any `model_with_data_path` column, as produced
by the four-column scenario table. -/
def rowNoWdCol : Row :=
  [("model", .node (tdCell [.text "FooNet"])),
   ("model_path", .node (tdCell [.elem "a" [("href", "foo.onnx")] [.text "19 MB"]])),
   ("opset_version", .node (tdCell [.text "12"])),
   ("onnx_version", .node (tdCell [.text "1.9"])),
   ("source_file", .str "../models/foo/README.md")]

/-- The row the five-column scenario pipeline hands to the enrichment
loop. -/
def scenarioRow5 : Row :=
  [("model", .node (tdCell [.text "FooNet"])),
   ("model_path", .node (tdCell [.elem "a" [("href", "foo.onnx")] [.text "19 MB"]])),
   ("model_with_data_path", .node (tdCell [.elem "a" [("href", "foo.tar.gz")] [.text "21 MB"]])),
   ("opset_version", .node (tdCell [.text "12"])),
   ("onnx_version", .node (tdCell [.text "1.9"])),
   ("source_file", .str "../models/foo/README.md")]

/-! ## Claim C7 -/

/-- C7: a record whose `opset_version` cell holds text that does not parse
as an integer is dropped by itself — `processRow` yields no entry but no
exception either — and the surrounding loop behaves as if the record were
absent: all other records, before and after it, are processed unchanged. -/
theorem c7_bad_opset_drops_single_record (bfs : BinFS) (shaF : ShaFun)
    (engine : Engine) (row : Row) (pre post : List Row) (info : FileInfo)
    (tags : List String) (wd : Option FileInfo) (sfc : Cell) (s msg : String)
    (hinfo : get_file_info bfs shaF row "model_path" = .ok info)
    (htags : get_model_tags row = .ok tags)
    (heng : engine (pyJoin ".." info.path) ≠ .otherError)
    (hwd : withDataStep bfs shaF row = .ok wd)
    (hop : opsetNode row = .ok (.text s))
    (hbad : pyIntStr s = .error (.valueError msg))
    (hsf : rowGet row "source_file" = .ok sfc) :
    processRow bfs shaF engine row = .ok none ∧
      processAll bfs shaF engine (pre ++ row :: post) =
        processAll bfs shaF engine (pre ++ post) := by
  obtain ⟨ioP, hio⟩ := engine_io_ok engine info.path heng
  have hskip := processRow_skip_opset bfs shaF engine row info tags ioP wd sfc
    s msg hinfo htags hio hwd hop hbad hsf
  exact ⟨hskip, processAll_middle_skip bfs shaF engine row pre post hskip⟩

/-- C7 (witness): the statement evaluated on a malformed-opset record
between two valid records. -/
theorem c7_bad_opset_drops_single_record_witness :
    processRow scenarioBins shaLen engineNI rowBadOpset = .ok none ∧
      processAll scenarioBins shaLen engineNI ([rowM] ++ rowBadOpset :: [rowM]) =
        processAll scenarioBins shaLen engineNI ([rowM] ++ [rowM]) :=
  c7_bad_opset_drops_single_record scenarioBins shaLen engineNI rowBadOpset
    [rowM] [rowM] ⟨"models/foo/foo.onnx", "4", 4⟩ ["models", "foo"] none
    (.str "../models/foo/README.md") "twelve" "invalid literal for int"
    rfl rfl (by decide) rfl rfl rfl rfl

/-! ## Claim C8 -/

/-- C8: for an otherwise valid record, when the engine reports the load as
`NotImplemented` (after the diagnostic instructing the operator to run
`git lfs pull`) the record is still emitted and its metadata has no
`io_ports`; when the load succeeds, `io_ports` holds the declared input
and output descriptors, each rebuilt from the port's name, shape and
type. -/
theorem c8_io_ports_presence (bfs : BinFS) (shaF : ShaFun) (engine : Engine)
    (row : Row) (info : FileInfo) (tags : List String) (wd : Option FileInfo)
    (onode : Node) (n : Int) (mcell : Cell) (c : Node) (crest : List Node)
    (vnode : Node)
    (hinfo : get_file_info bfs shaF row "model_path" = .ok info)
    (htags : get_model_tags row = .ok tags)
    (hwd : withDataStep bfs shaF row = .ok wd)
    (hop : opsetNode row = .ok onode)
    (hn : pyIntNode onode = .ok n)
    (hm : rowGet row "model" = .ok mcell)
    (hmc : cellContents mcell = .ok (c :: crest))
    (hv : onnxVersionNode row = .ok vnode) :
    (engine (pyJoin ".." info.path) = .notImplemented →
      processRow bfs shaF engine row =
        .ok (some ⟨c, info.path, vnode, n,
          ⟨info.sha, info.bytes, tags, none, wd⟩⟩)) ∧
    (∀ sp, engine (pyJoin ".." info.path) = .ok sp →
      processRow bfs shaF engine row =
        .ok (some ⟨c, info.path, vnode, n,
          ⟨info.sha, info.bytes, tags,
           some ⟨sp.inputs.map (fun i => ⟨i.name, i.shape, i.type⟩),
                 sp.outputs.map (fun o => ⟨o.name, o.shape, o.type⟩)⟩, wd⟩⟩)) := by
  constructor
  · intro hE
    have hio : get_model_io_ports engine info.path = .ok none := by
      unfold get_model_io_ports
      rw [hE]
    exact processRow_emit bfs shaF engine row info tags none wd onode n mcell c
      crest vnode hinfo htags hio hwd hop hn hm hmc hv
  · intro sp hE
    have hio : get_model_io_ports engine info.path =
        .ok (some ⟨sp.inputs.map (fun i => ⟨i.name, i.shape, i.type⟩),
          sp.outputs.map (fun o => ⟨o.name, o.shape, o.type⟩)⟩) := by
      unfold get_model_io_ports
      rw [hE]
    exact processRow_emit bfs shaF engine row info tags _ wd onode n mcell c
      crest vnode hinfo htags hio hwd hop hn hm hmc hv

/-- C8 (witness): the statement evaluated on the benign record with the
all-`NotImplemented` engine. -/
theorem c8_io_ports_presence_witness :
    (engineNI (pyJoin ".." "models/foo/foo.onnx") = .notImplemented →
      processRow scenarioBins shaLen engineNI rowM =
        .ok (some ⟨.text "FooNet", "models/foo/foo.onnx", .text "1.9", 12,
          ⟨"4", 4, ["models", "foo"], none, none⟩⟩)) ∧
    (∀ sp, engineNI (pyJoin ".." "models/foo/foo.onnx") = .ok sp →
      processRow scenarioBins shaLen engineNI rowM =
        .ok (some ⟨.text "FooNet", "models/foo/foo.onnx", .text "1.9", 12,
          ⟨"4", 4, ["models", "foo"],
           some ⟨sp.inputs.map (fun i => ⟨i.name, i.shape, i.type⟩),
                 sp.outputs.map (fun o => ⟨o.name, o.shape, o.type⟩)⟩, none⟩⟩)) :=
  c8_io_ports_presence scenarioBins shaLen engineNI rowM
    ⟨"models/foo/foo.onnx", "4", 4⟩ ["models", "foo"] none (.text "12") 12
    (.node (tdCell [.text "FooNet"])) (.text "FooNet") [] (.text "1.9")
    rfl rfl rfl rfl rfl rfl rfl rfl

/-! ## Claim C9 -/

/-- C9 (counterexample): in a record with *no* `model_with_data_path`
column at all (no table contributed one), the cell lookup raises a
`KeyError`, which the `except AttributeError` clause does not catch — the
run aborts instead of skipping the resolution; the record, although
otherwise fully valid, is not emitted. -/
theorem c9_counterexample :
    get_file_info scenarioBins shaLen rowNoWdCol "model_path" =
      .ok ⟨"models/foo/foo.onnx", "4", 4⟩ ∧
    get_file_info scenarioBins shaLen rowNoWdCol "model_with_data_path" =
      .error .keyError ∧
    processRow scenarioBins shaLen engineNI rowNoWdCol = .error .keyError :=
  ⟨rfl, rfl, rfl⟩

/-- C9 (amended): when the `model_with_data_path` *cell* is absent (a
`NaN` missing value, the column existing in the concatenated frame), the
resolution is skipped via the caught `AttributeError` and the record is
emitted with its other metadata intact and no with-data fields; when the
cell is present and resolvable, it is resolved exactly as `model_path`
(by the same `get_file_info`) and its path/hash/size join the metadata;
but a record lacking the column entirely aborts the run with an uncaught
`KeyError`. -/
theorem c9_with_data_optional (bfs : BinFS) (shaF : ShaFun) (engine : Engine)
    (row : Row) (info : FileInfo) (tags : List String) (ioP : Option IoPortsVal)
    (sf : String) (onode : Node) (n : Int) (mcell : Cell) (c : Node)
    (crest : List Node) (vnode : Node)
    (hinfo : get_file_info bfs shaF row "model_path" = .ok info)
    (htags : get_model_tags row = .ok tags)
    (hio : get_model_io_ports engine info.path = .ok ioP)
    (hsf : rowGet row "source_file" = .ok (.str sf))
    (hop : opsetNode row = .ok onode)
    (hn : pyIntNode onode = .ok n)
    (hm : rowGet row "model" = .ok mcell)
    (hmc : cellContents mcell = .ok (c :: crest))
    (hv : onnxVersionNode row = .ok vnode) :
    (rowGet row "model_with_data_path" = .ok .nan →
      withDataStep bfs shaF row = .ok none ∧
      processRow bfs shaF engine row =
        .ok (some ⟨c, info.path, vnode, n,
          ⟨info.sha, info.bytes, tags, ioP, none⟩⟩)) ∧
    (∀ wi, get_file_info bfs shaF row "model_with_data_path" = .ok wi →
      withDataStep bfs shaF row = .ok (some wi) ∧
      processRow bfs shaF engine row =
        .ok (some ⟨c, info.path, vnode, n,
          ⟨info.sha, info.bytes, tags, ioP, some wi⟩⟩)) := by
  constructor
  · intro hnan
    have hgfi : get_file_info bfs shaF row "model_with_data_path" =
        .error .attributeError := by
      unfold get_file_info
      simp only [hsf, cellStr, hnan, cellContents]
    have hwd : withDataStep bfs shaF row = .ok none := by
      unfold withDataStep
      simp only [hgfi, hsf]
    exact ⟨hwd, processRow_emit bfs shaF engine row info tags ioP none onode n
      mcell c crest vnode hinfo htags hio hwd hop hn hm hmc hv⟩
  · intro wi hgfi
    have hwd : withDataStep bfs shaF row = .ok (some wi) := by
      unfold withDataStep
      rw [hgfi]
    exact ⟨hwd, processRow_emit bfs shaF engine row info tags ioP (some wi)
      onode n mcell c crest vnode hinfo htags hio hwd hop hn hm hmc hv⟩

/-- C9 (witness): the amended statement evaluated on the benign record
whose with-data cell is `NaN`. -/
theorem c9_with_data_optional_witness :
    (rowGet rowM "model_with_data_path" = .ok .nan →
      withDataStep scenarioBins shaLen rowM = .ok none ∧
      processRow scenarioBins shaLen engineNI rowM =
        .ok (some ⟨.text "FooNet", "models/foo/foo.onnx", .text "1.9", 12,
          ⟨"4", 4, ["models", "foo"], none, none⟩⟩)) ∧
    (∀ wi, get_file_info scenarioBins shaLen rowM "model_with_data_path" = .ok wi →
      withDataStep scenarioBins shaLen rowM = .ok (some wi) ∧
      processRow scenarioBins shaLen engineNI rowM =
        .ok (some ⟨.text "FooNet", "models/foo/foo.onnx", .text "1.9", 12,
          ⟨"4", 4, ["models", "foo"], none, some wi⟩⟩)) :=
  c9_with_data_optional scenarioBins shaLen engineNI rowM
    ⟨"models/foo/foo.onnx", "4", 4⟩ ["models", "foo"] none
    "../models/foo/README.md" (.text "12") 12 (.node (tdCell [.text "FooNet"]))
    (.text "FooNet") [] (.text "1.9") rfl rfl rfl rfl rfl rfl rfl rfl rfl

/-! ## Claim C10 -/

/-- C10: `get_file_info(row, "model_path")` — which opens, reads and
hashes the referenced file — runs before the opset parse and the
empty-model check, so a record that would later have been dropped as
invalid (here: a malformed opset) still aborts the whole run when its
model file cannot be read: `processRow` propagates the `IOError`, and so
does the loop over any row stream containing the record. -/
theorem c10_hash_before_validation (bfs : BinFS) (shaF : ShaFun)
    (engine : Engine) (rows : List Row) (row : Row) (s msg : String)
    (hmem : row ∈ rows)
    (hio : get_file_info bfs shaF row "model_path" = .error .ioError)
    (hop : opsetNode row = .ok (.text s))
    (hbad : pyIntStr s = .error (.valueError msg)) :
    processRow bfs shaF engine row = .error .ioError ∧
      ∃ e, processAll bfs shaF engine rows = .error e := by
  have h1 := processRow_fatal_info bfs shaF engine row .ioError hio
  exact ⟨h1, processAll_error_of_mem bfs shaF engine rows row hmem ⟨_, h1⟩⟩

/-- C10 (witness): the statement evaluated on a record with both an
unreadable model file and a malformed opset. -/
theorem c10_hash_before_validation_witness :
    processRow noBins shaLen engineNI rowBadOpset = .error .ioError ∧
      ∃ e, processAll noBins shaLen engineNI [rowBadOpset] = .error e :=
  c10_hash_before_validation noBins shaLen engineNI [rowBadOpset] rowBadOpset
    "twelve" "invalid literal for int" (List.mem_singleton.mpr rfl) rfl rfl rfl

/-! ## Claim C1 -/

/-- The script succeeds with `out` exactly when the document stages
succeed and the enrichment loop completes on every resulting record. -/
theorem script_eq_ok (docs : DocFS) (bfs : BinFS) (shaF : ShaFun)
    (engine : Engine) (out : List Entry) :
    script docs bfs shaF engine = .ok out ↔
      ∃ rows, stageRows docs = .ok rows ∧
        processAll bfs shaF engine rows = .ok out := by
  unfold script
  cases hst : stageRows docs with
  | error e => simp
  | ok rows => simp

/-- C1: when any record's `model_path` references a file that cannot be
opened for hashing, the run terminates with a fatal exception: the script
produces no output, the manifest file keeps its prior content whatever it
was, and — in general, for any run — the manifest file can change only to
the output of a run whose enrichment loop processed every record to
completion. -/
theorem c1_fatal_io_before_manifest_write (docs : DocFS) (bfs : BinFS)
    (shaF : ShaFun) (engine : Engine) (rows : List Row) (row : Row)
    (hstage : stageRows docs = .ok rows) (hmem : row ∈ rows)
    (hio : get_file_info bfs shaF row "model_path" = .error .ioError) :
    (∃ e, script docs bfs shaF engine = .error e) ∧
    (∀ prior, finalManifest prior docs bfs shaF engine = prior) ∧
    (∀ (docs2 : DocFS) (bfs2 : BinFS) (shaF2 : ShaFun) (engine2 : Engine)
       (prior2 : Option (List Entry)) (out : List Entry),
       finalManifest prior2 docs2 bfs2 shaF2 engine2 = some out →
       prior2 = some out ∨
         (∃ rows2, stageRows docs2 = .ok rows2 ∧
           processAll bfs2 shaF2 engine2 rows2 = .ok out)) := by
  have h1 := processRow_fatal_info bfs shaF engine row .ioError hio
  obtain ⟨e, he⟩ := processAll_error_of_mem bfs shaF engine rows row hmem ⟨_, h1⟩
  have hscript : script docs bfs shaF engine = .error e := by
    unfold script
    rw [hstage]
    exact he
  refine ⟨⟨e, hscript⟩, ?_, ?_⟩
  · intro prior
    unfold finalManifest
    rw [hscript]
  · intro docs2 bfs2 shaF2 engine2 prior2 out hfin
    unfold finalManifest at hfin
    cases hs : script docs2 bfs2 shaF2 engine2 with
    | error e2 =>
        rw [hs] at hfin
        exact Or.inl hfin
    | ok l =>
        rw [hs] at hfin
        right
        have hlo : l = out := Option.some.inj hfin
        exact (script_eq_ok docs2 bfs2 shaF2 engine2 out).mp (hlo ▸ hs)

/-- C1 (witness): the statement evaluated on the five-column scenario with
no readable binary file (end-to-end scenario 4). -/
theorem c1_fatal_io_before_manifest_write_witness :
    stageRows scenarioDocs5 = .ok [scenarioRow5] ∧
    get_file_info noBins shaLen scenarioRow5 "model_path" = .error .ioError ∧
    (∃ e, script scenarioDocs5 noBins shaLen engineNI = .error e) ∧
    (∀ prior, finalManifest prior scenarioDocs5 noBins shaLen engineNI = prior) := by
  have h := c1_fatal_io_before_manifest_write scenarioDocs5 noBins shaLen
    engineNI [scenarioRow5] scenarioRow5 rfl (List.mem_singleton.mpr rfl) rfl
  exact ⟨rfl, rfl, h.1, h.2.1⟩

/-! ## Claim C2 -/

/-- The tag derivation as the spec words it: split the source document's
directory path into segments, drop the first segment (the scan-root
marker), and replace underscores with spaces in each remaining segment,
preserving order. -/
def specTags (sourceDocDir : String) : List String :=
  ((splitSlash sourceDocDir).drop 1).map underscoresToSpaces

/-- The single manifest entry the five-column scenario run emits, for a
given hash function. -/
def scenarioEntry (shaF : ShaFun) : Entry :=
  ⟨.text "FooNet", "models/foo/foo.onnx", .text "1.9", 12,
   ⟨shaF fooOnnxBytes, 4, ["models", "foo"], none,
    some ⟨"models/foo/foo.tar.gz", shaF fooTarBytes, 3⟩⟩⟩

/-- C2 (counterexample): the scenario exactly as claimed — a root document
linking one model class to `models/foo/README.md` whose README has one
table with columns `Model`, `Download`, `Opset version`, `ONNX version` —
does not emit an entry at all: the enrichment loop crashes with the
uncaught `KeyError` of the absent `model_with_data_path` column.  Adding
that column lets the run emit its one entry, whose `metadata.tags` is
`["models", "foo"]`, not the claimed `["foo"]` (only the leading `..` scan
root marker is dropped from `../models/foo`). -/
theorem c2_counterexample :
    script scenarioDocs4 scenarioBins shaLen engineNI = .error .keyError ∧
    script scenarioDocs5 scenarioBins shaLen engineNI =
      .ok [scenarioEntry shaLen] ∧
    (scenarioEntry shaLen).metadata.tags = ["models", "foo"] ∧
    (["models", "foo"] : List String) ≠ ["foo"] :=
  ⟨rfl, rfl, rfl, by decide⟩

/-- C2 (amended): with the with-sample-data column added (without it the
run aborts on an uncaught `KeyError`), the scenario run emits exactly one
ManifestEntry named per the `Model` cell text, with `model_path` resolved
under `models/foo/` and `metadata.tags = ["models", "foo"]`; and in
general the tags of a record are the segments of its source document's
directory path after dropping the first segment, with underscores
replaced by spaces, order preserved. -/
theorem c2_scenario_entry_and_tags (shaF : ShaFun) :
    script scenarioDocs5 scenarioBins shaF engineNI = .ok [scenarioEntry shaF] ∧
    (scenarioEntry shaF).model = .text "FooNet" ∧
    (scenarioEntry shaF).model_path = "models/foo/foo.onnx" ∧
    (scenarioEntry shaF).metadata.tags = ["models", "foo"] ∧
    (∀ (row : Row) (sf : String), rowGet row "source_file" = .ok (.str sf) →
      get_model_tags row = .ok (specTags (pySplitPath sf).1)) := by
  refine ⟨rfl, rfl, rfl, rfl, ?_⟩
  intro row sf h
  unfold get_model_tags
  simp only [h, cellStr]
  rfl

/-- C2 (witness): the amended statement's general tag rule evaluated at
the scenario record, with the scenario run at a concrete hash function. -/
theorem c2_scenario_entry_and_tags_witness :
    script scenarioDocs5 scenarioBins shaLen engineNI =
      .ok [scenarioEntry shaLen] ∧
    get_model_tags scenarioRow5 =
      .ok (specTags (pySplitPath "../models/foo/README.md").1) :=
  ⟨(c2_scenario_entry_and_tags shaLen).1,
   (c2_scenario_entry_and_tags shaLen).2.2.2.2 scenarioRow5
     "../models/foo/README.md" rfl⟩

end OnnxManifest
